import Mathlib

/-!
Shallow embedding of librepo's `src/librepo/package_downloader.c`.

The C file defines three functions:
  * `lr_packagetarget_new`  — construct one package request;
  * `lr_download_packages`  — the batch orchestrator: repotype precondition,
    SIGINT guard installation, internal-mirrorlist preparation, per-request
    destination resolution and checksum skip-check, delegation to the transfer
    engine (`lr_download`), result reconciliation, guard restoration and
    interrupt reconciliation;
  * `lr_download_package`   — single-item convenience wrapper.

External collaborators (the filesystem tests `g_file_test`/`g_access`/`open`,
the checksum verifier `lr_checksum_fd_cmp`, the mirrorlist preparation
`lr_handle_prepare_internal_mirrorlist`, the transfer engine `lr_download`,
and the process-wide interrupt flag `lr_interrupt`) are modelled as an
explicit environment record `LrEnv` of pure functions, following the C call
boundaries.  Stateful effects of one batch call (the per-request mutations,
whether the signal handler was installed and how many times it was restored,
and what was handed to the engine) are collected in a `DownloadResult`.
-/

set_option linter.unusedVariables false

/-- `LrChecksumType` from librepo's types: the code only distinguishes
`LR_CHECKSUM_UNKNOWN` from the rest. -/
inductive LrChecksumType
  | LR_CHECKSUM_UNKNOWN
  | LR_CHECKSUM_MD5
  | LR_CHECKSUM_SHA1
  | LR_CHECKSUM_SHA224
  | LR_CHECKSUM_SHA256
  | LR_CHECKSUM_SHA384
  | LR_CHECKSUM_SHA512
  deriving DecidableEq, Repr

/-- Repository type configured on the handle; `lr_download_packages` requires
`LR_YUMREPO`. -/
inductive LrRepotype
  | LR_YUMREPO
  | LR_SUSEREPO
  | LR_DEBREPO
  deriving DecidableEq, Repr

/-- The error kinds `lr_download_packages` can set on its `GError` out
parameter (plus an opaque kind for errors propagated from the mirrorlist
preparation or the transfer engine). -/
inductive LrError
  | LRE_BADFUNCARG (msg : String)
  | LRE_SIGACTION (msg : String)
  | LRE_INTERRUPTED (msg : String)
  | LRE_OTHER (msg : String)
  deriving DecidableEq, Repr

/-- `LrPackageTarget`: one package request.  Field order follows the C
struct; `local_path` and `err` are the mutable result fields written during
the batch.  The opaque C pointers `progresscb`/`cbdata` are modelled as
numeric identifiers. -/
structure LrPackageTarget where
  relative_url : String
  dest : Option String
  checksum_type : LrChecksumType
  checksum : Option String
  expectedsize : Int
  base_url : Option String
  resume : Bool
  progresscb : Nat
  cbdata : Nat
  local_path : Option String
  err : Option String
  deriving DecidableEq, Repr

/-- `LrDownloadTarget` as built by `lr_downloadtarget_new` in the prepare
loop.  The C `userdata` back-pointer to the originating `LrPackageTarget` is
modelled as that request's index in the input list.  `err` is the terminal
error the transfer engine may record on the target. -/
structure LrDownloadTarget where
  path : String
  baseurl : Option String
  fd : Int
  fn : String
  checksum_type : LrChecksumType
  checksum : Option String
  expectedsize : Int
  resume : Bool
  progresscb : Nat
  cbdata : Nat
  userdata : Nat
  err : Option String
  deriving DecidableEq, Repr

/-- The slice of `LrHandle` that `package_downloader.c` reads. -/
structure LrHandle where
  repotype : LrRepotype
  interruptible : Bool
  destdir : Option String
  user_cb : Nat
  user_data : Nat

/-- Result of one `lr_download` call: overall flag, the `GError` message it
sets on failure, and the per-target error annotations (positional, matching
the handed-over list; the engine must not reorder or drop entries). -/
structure EngineResult where
  ret : Bool
  err : Option String
  targetErrs : List (Option String)

/-- The external world of one batch call: filesystem tests, checksum
verifier, sigaction outcome, mirrorlist preparation outcome, the transfer
engine, and the `lr_interrupt` flag as observed at restore time.
`cksumCmp ty p c = none` models `lr_checksum_fd_cmp` returning FALSE
(verifier failed to run); `some m` models success with `matches = m`. -/
structure LrEnv where
  isDir : String → Bool
  readable : String → Bool
  openOk : String → Bool
  cksumCmp : LrChecksumType → String → String → Option Bool
  sigactionOk : Bool
  mirrorlist : Option String
  engine : List LrDownloadTarget → Bool → EngineResult
  interruptFlag : Bool

/-- `g_path_get_basename`: last path component, with trailing separators
stripped; `"."` for the empty string, `"/"` for an all-separator string. -/
def g_path_get_basename (p : String) : String :=
  let r := p.toList.reverse.dropWhile (fun c => c = '/')
  if r.isEmpty then
    if p.isEmpty then "." else "/"
  else
    String.mk ((r.takeWhile (fun c => c ≠ '/')).reverse)

/-- `g_build_filename` on two components: join with a single separator,
stripping trailing separators of the first and leading separators of the
second. -/
def g_build_filename (a b : String) : String :=
  if a.isEmpty then b
  else if b.isEmpty then a
  else
    String.mk ((a.toList.reverse.dropWhile (fun c => c = '/')).reverse)
      ++ "/" ++ String.mk (b.toList.dropWhile (fun c => c = '/'))

/-- Destination resolution of the prepare loop (package_downloader.c lines
136–151): hint naming an existing directory → `hint/basename(relative_url)`;
any other hint → the hint verbatim; no hint → `basename(relative_url)`. -/
def resolve_local_path (env : LrEnv) (dest : Option String)
    (relative_url : String) : String :=
  match dest with
  | some d =>
      if env.isDir d then g_build_filename d (g_path_get_basename relative_url)
      else d
  | none => g_path_get_basename relative_url

/-- The skip condition of lines 157–186: the file at the resolved path is
readable (`g_access`), a checksum value is configured and its type is not
`LR_CHECKSUM_UNKNOWN`, `open` succeeds, and `lr_checksum_fd_cmp` returns
TRUE with `matches` set. -/
def shouldSkip (env : LrEnv) (t : LrPackageTarget) (lp : String) : Bool :=
  env.readable lp && t.checksum.isSome &&
    decide (t.checksum_type ≠ LrChecksumType.LR_CHECKSUM_UNKNOWN) &&
    env.openOk lp &&
    (env.cksumCmp t.checksum_type lp (t.checksum.getD "")).getD false

/-- The skip condition of a request, evaluated at its resolved local path. -/
def skipAt (env : LrEnv) (t : LrPackageTarget) : Bool :=
  shouldSkip env t (resolve_local_path env t.dest t.relative_url)

/-- `lr_packagetarget_new`: plain construction, result fields cleared. -/
def lr_packagetarget_new (relative_url : String) (dest : Option String)
    (checksum_type : LrChecksumType) (checksum : Option String)
    (expectedsize : Int) (base_url : Option String) (resume : Bool)
    (progresscb : Nat) (cbdata : Nat) : LrPackageTarget :=
  { relative_url := relative_url, dest := dest, checksum_type := checksum_type,
    checksum := checksum, expectedsize := expectedsize, base_url := base_url,
    resume := resume, progresscb := progresscb, cbdata := cbdata,
    local_path := none, err := none }

/-- `lr_downloadtarget_new` with the argument order of the call at lines
188–198. -/
def lr_downloadtarget_new (path : String) (baseurl : Option String) (fd : Int)
    (fn : String) (checksum_type : LrChecksumType) (checksum : Option String)
    (expectedsize : Int) (resume : Bool) (progresscb : Nat) (cbdata : Nat)
    (userdata : Nat) : LrDownloadTarget :=
  { path := path, baseurl := baseurl, fd := fd, fn := fn,
    checksum_type := checksum_type, checksum := checksum,
    expectedsize := expectedsize, resume := resume, progresscb := progresscb,
    cbdata := cbdata, userdata := userdata, err := none }

/-- The download target built for the request at index `idx`. -/
def mkTargetAt (env : LrEnv) (idx : Nat) (t : LrPackageTarget) :
    LrDownloadTarget :=
  lr_downloadtarget_new t.relative_url t.base_url (-1)
    (resolve_local_path env t.dest t.relative_url) t.checksum_type t.checksum
    t.expectedsize t.resume t.progresscb t.cbdata idx

/-- One iteration of the prepare loop (lines 131–201) for the request at
index `idx`: resolve and record the local path, then either mark the request
skipped with the fixed marker (no download target), or build the download
target. -/
def prepareTarget (env : LrEnv) (idx : Nat) (t : LrPackageTarget) :
    LrPackageTarget × Option LrDownloadTarget :=
  let lp := resolve_local_path env t.dest t.relative_url
  if shouldSkip env t lp then
    ({ t with local_path := some lp, err := some "Already downloaded" }, none)
  else
    ({ t with local_path := some lp },
     some (lr_downloadtarget_new t.relative_url t.base_url (-1) lp
        t.checksum_type t.checksum t.expectedsize t.resume t.progresscb
        t.cbdata idx))

/-- The prepare loop over the request list, indices starting at `k`:
returns the mutated requests (in order) and the download targets of the
non-skipped requests (in order, appended as in the C loop). -/
def prepareTargetsAux (env : LrEnv) (k : Nat) :
    List LrPackageTarget → List LrPackageTarget × List LrDownloadTarget
  | [] => ([], [])
  | t :: ts =>
    let r := prepareTarget env k t
    let rest := prepareTargetsAux env (k + 1) ts
    (r.1 :: rest.1,
     match r.2 with
     | some dt => dt :: rest.2
     | none => rest.2)

/-- Replace the element at index `j` (if any) by `f` applied to it. -/
def updateAt {α : Type} : List α → Nat → (α → α) → List α
  | [], _, _ => []
  | x :: xs, 0, f => f x :: xs
  | x :: xs, n + 1, f => x :: updateAt xs n f

/-- The reconciliation loop of lines 209–215: for every download target that
carries a terminal error, copy it onto the originating request (located via
the `userdata` back-reference); targets without an error leave their request
untouched. -/
def reconcile (dts : List LrDownloadTarget) (reqs : List LrPackageTarget) :
    List LrPackageTarget :=
  match dts with
  | [] => reqs
  | dt :: rest =>
    match dt.err with
    | some e =>
        reconcile rest (updateAt reqs dt.userdata (fun r => { r with err := some e }))
    | none => reconcile rest reqs

/-- The transfer engine annotating the handed-over targets in place:
positional application of its per-target error list. -/
def annotate : List LrDownloadTarget → List (Option String) →
    List LrDownloadTarget
  | [], _ => []
  | dts, [] => dts
  | dt :: dts, e :: es => { dt with err := e } :: annotate dts es

/-- The observable outcome of one `lr_download_packages` call:
return flag, `GError` out-parameter, the requests after all mutations,
whether the SIGINT guard was installed and how many times the saved handler
was restored, whether `lr_download` was invoked and with which list, and the
download targets as annotated by the engine (before they are freed). -/
structure DownloadResult where
  ret : Bool
  err : Option LrError
  finalTargets : List LrPackageTarget
  sigInstalled : Bool
  sigRestoreCount : Nat
  engineCalled : Bool
  engineTargets : List LrDownloadTarget
  engineAnnotated : List LrDownloadTarget
  deriving Repr

/-- The `cleanup` tail of `lr_download_packages` (lines 206–233):
reconcile engine annotations onto the requests, restore the saved SIGINT
handler when one was installed, and, if the interrupt flag was raised during
the guarded window, discard any recorded error in favour of the
`LRE_INTERRUPTED` error and report failure. -/
def finishBatch (env : LrEnv) (interruptible : Bool) (ret : Bool)
    (err : Option LrError) (reqs : List LrPackageTarget)
    (annotated : List LrDownloadTarget) (engineCalled : Bool)
    (engineTargets : List LrDownloadTarget) : DownloadResult :=
  let reqs' := reconcile annotated reqs
  if interruptible then
    if env.interruptFlag then
      { ret := false,
        err := some (LrError.LRE_INTERRUPTED "Insterupted by a SIGINT signal"),
        finalTargets := reqs', sigInstalled := true, sigRestoreCount := 1,
        engineCalled := engineCalled, engineTargets := engineTargets,
        engineAnnotated := annotated }
    else
      { ret := ret, err := err, finalTargets := reqs', sigInstalled := true,
        sigRestoreCount := 1, engineCalled := engineCalled,
        engineTargets := engineTargets, engineAnnotated := annotated }
  else
    { ret := ret, err := err, finalTargets := reqs', sigInstalled := false,
      sigRestoreCount := 0, engineCalled := engineCalled,
      engineTargets := engineTargets, engineAnnotated := annotated }

/-- `lr_download_packages` (lines 85–234): empty batch → immediate success;
repotype precondition; SIGINT guard installation on an interruptible handle;
mirrorlist preparation (failure jumps to cleanup); the prepare loop; one
`lr_download` call; cleanup. -/
def lr_download_packages (env : LrEnv) (handle : LrHandle)
    (targets : List LrPackageTarget) (failfast : Bool) : DownloadResult :=
  if targets.isEmpty then
    { ret := true, err := none, finalTargets := targets, sigInstalled := false,
      sigRestoreCount := 0, engineCalled := false, engineTargets := [],
      engineAnnotated := [] }
  else if handle.repotype ≠ LrRepotype.LR_YUMREPO then
    { ret := false, err := some (LrError.LRE_BADFUNCARG "Bad repo type"),
      finalTargets := targets, sigInstalled := false, sigRestoreCount := 0,
      engineCalled := false, engineTargets := [], engineAnnotated := [] }
  else if handle.interruptible && !env.sigactionOk then
    { ret := false,
      err := some (LrError.LRE_SIGACTION "Cannot set Librepo SIGINT handler"),
      finalTargets := targets, sigInstalled := false, sigRestoreCount := 0,
      engineCalled := false, engineTargets := [], engineAnnotated := [] }
  else
    match env.mirrorlist with
    | some msg =>
        finishBatch env handle.interruptible false
          (some (LrError.LRE_OTHER msg)) targets [] false []
    | none =>
        let prepared := prepareTargetsAux env 0 targets
        let er := env.engine prepared.2 failfast
        let annotated := annotate prepared.2 er.targetErrs
        finishBatch env handle.interruptible er.ret
          (er.err.map LrError.LRE_OTHER) prepared.1 annotated true prepared.2

/-- `lr_download_package` (lines 236–275): substitute the handle's default
destination directory for a missing `dest`, build one request with the
handle's callback/context, and run it through the batch path with
`LR_PACKAGEDOWNLOAD_FAILFAST`. -/
def lr_download_package (env : LrEnv) (handle : LrHandle)
    (relative_url : String) (dest : Option String)
    (checksum_type : LrChecksumType) (checksum : Option String)
    (expectedsize : Int) (base_url : Option String) (resume : Bool) :
    DownloadResult :=
  let dest' := match dest with
    | none => handle.destdir
    | some d => some d
  let target := lr_packagetarget_new relative_url dest' checksum_type checksum
    expectedsize base_url resume handle.user_cb handle.user_data
  lr_download_packages env handle [target] true

/-- The terminal error the engine recorded for the request at index `i`:
the `err` of the (unique) annotated download target whose back-reference is
`i`, or `none` when the engine recorded none. -/
def engineErrFor (dts : List LrDownloadTarget) (i : Nat) : Option String :=
  match dts.find? (fun dt => dt.userdata == i) with
  | some dt => dt.err
  | none => none

/-- Pair every list element with its index, starting from `k`. -/
def enumFromIdx {α : Type} (k : Nat) : List α → List (Nat × α)
  | [] => []
  | x :: xs => (k, x) :: enumFromIdx (k + 1) xs

/-- Number of download targets in `l` whose back-reference is `i`. -/
def countU (l : List LrDownloadTarget) (i : Nat) : Nat :=
  (l.filter (fun dt => dt.userdata == i)).length

/-! ### Basic lemmas about the prepare step -/

lemma resolve_local_path_congr (env env2 : LrEnv) (d : Option String)
    (u : String) (h : env2.isDir = env.isDir) :
    resolve_local_path env2 d u = resolve_local_path env d u := by
  unfold resolve_local_path
  cases d with
  | none => rfl
  | some d => rw [h]

lemma mkTargetAt_userdata (env : LrEnv) (idx : Nat) (t : LrPackageTarget) :
    (mkTargetAt env idx t).userdata = idx := rfl

lemma mkTargetAt_resume (env : LrEnv) (idx : Nat) (t : LrPackageTarget) :
    (mkTargetAt env idx t).resume = t.resume := rfl

lemma prepareTarget_fst (env : LrEnv) (idx : Nat) (t : LrPackageTarget) :
    (prepareTarget env idx t).1 =
      { t with local_path := some (resolve_local_path env t.dest t.relative_url),
               err := if skipAt env t then some "Already downloaded" else t.err } := by
  unfold prepareTarget skipAt
  split
  · next h => simp [h]
  · next h => simp [h]

lemma prepareTarget_snd (env : LrEnv) (idx : Nat) (t : LrPackageTarget) :
    (prepareTarget env idx t).2 =
      if skipAt env t then none else some (mkTargetAt env idx t) := by
  unfold prepareTarget skipAt mkTargetAt
  split
  · next h => simp [h]
  · next h => simp [h]

lemma shouldSkip_false_of_no_checksum (env : LrEnv) (t : LrPackageTarget)
    (lp : String)
    (h : t.checksum = none ∨ t.checksum_type = LrChecksumType.LR_CHECKSUM_UNKNOWN) :
    shouldSkip env t lp = false := by
  unfold shouldSkip
  rcases h with h | h
  · simp [h]
  · simp [h]

lemma shouldSkip_false_of_fail (env : LrEnv) (t : LrPackageTarget) (lp : String)
    (h : env.readable lp = false ∨ env.openOk lp = false ∨
      env.cksumCmp t.checksum_type lp (t.checksum.getD "") ≠ some true) :
    shouldSkip env t lp = false := by
  unfold shouldSkip
  rcases h with h | h | h
  · simp [h]
  · simp [h]
  · rcases hc : env.cksumCmp t.checksum_type lp (t.checksum.getD "") with _ | b
    · simp [hc]
    · cases b with
      | false => simp [hc]
      | true => exact absurd hc h

lemma skipAt_true_of (env : LrEnv) (t : LrPackageTarget) (c : String)
    (hread : env.readable (resolve_local_path env t.dest t.relative_url) = true)
    (hck : t.checksum = some c)
    (hty : t.checksum_type ≠ LrChecksumType.LR_CHECKSUM_UNKNOWN)
    (hopen : env.openOk (resolve_local_path env t.dest t.relative_url) = true)
    (hcmp : env.cksumCmp t.checksum_type
      (resolve_local_path env t.dest t.relative_url) c = some true) :
    skipAt env t = true := by
  unfold skipAt shouldSkip
  simp [hread, hck, hty, hopen, hcmp]

/-! ### Lemmas about `updateAt`, `reconcile` and `annotate` -/

lemma length_updateAt {α : Type} (l : List α) (j : Nat) (f : α → α) :
    (updateAt l j f).length = l.length := by
  induction l generalizing j with
  | nil => rfl
  | cons x xs ih =>
    cases j with
    | zero => rfl
    | succ n => simp [updateAt, ih]

lemma updateAt_getElem?_ne {α : Type} (l : List α) (j i : Nat) (f : α → α)
    (h : j ≠ i) : (updateAt l j f)[i]? = l[i]? := by
  induction l generalizing j i with
  | nil => rfl
  | cons x xs ih =>
    cases j with
    | zero =>
      cases i with
      | zero => exact absurd rfl h
      | succ m => simp [updateAt]
    | succ n =>
      cases i with
      | zero => simp [updateAt]
      | succ m =>
        simp only [updateAt, List.getElem?_cons_succ]
        exact ih n m (by omega)

lemma updateAt_getElem?_self {α : Type} (l : List α) (j : Nat) (f : α → α) :
    (updateAt l j f)[j]? = Option.map f l[j]? := by
  induction l generalizing j with
  | nil => rfl
  | cons x xs ih =>
    cases j with
    | zero => simp [updateAt]
    | succ n => simpa [updateAt] using ih n

lemma map_updateAt {α β : Type} (g : α → β) (f : α → α)
    (h : ∀ x, g (f x) = g x) (l : List α) (j : Nat) :
    (updateAt l j f).map g = l.map g := by
  induction l generalizing j with
  | nil => rfl
  | cons x xs ih =>
    cases j with
    | zero => simp [updateAt, h]
    | succ n => simp [updateAt, ih]

lemma reconcile_map {β : Type} (g : LrPackageTarget → β)
    (hg : ∀ r e, g { r with err := some e } = g r)
    (dts : List LrDownloadTarget) (reqs : List LrPackageTarget) :
    (reconcile dts reqs).map g = reqs.map g := by
  induction dts generalizing reqs with
  | nil => rfl
  | cons dt rest ih =>
    unfold reconcile
    cases hdt : dt.err with
    | none => exact ih reqs
    | some e =>
      rw [ih]
      exact map_updateAt g _ (fun r => hg r e) reqs dt.userdata

lemma length_reconcile (dts : List LrDownloadTarget)
    (reqs : List LrPackageTarget) :
    (reconcile dts reqs).length = reqs.length := by
  induction dts generalizing reqs with
  | nil => rfl
  | cons dt rest ih =>
    unfold reconcile
    cases hdt : dt.err with
    | none => exact ih reqs
    | some e => rw [ih, length_updateAt]

lemma reconcile_getElem?_notmem (dts : List LrDownloadTarget)
    (reqs : List LrPackageTarget) (i : Nat)
    (h : ∀ dt ∈ dts, dt.userdata ≠ i) :
    (reconcile dts reqs)[i]? = reqs[i]? := by
  induction dts generalizing reqs with
  | nil => rfl
  | cons dt rest ih =>
    unfold reconcile
    cases hdt : dt.err with
    | none => exact ih reqs (fun d hd => h d (List.mem_cons_of_mem dt hd))
    | some e =>
      rw [ih _ (fun d hd => h d (List.mem_cons_of_mem dt hd))]
      exact updateAt_getElem?_ne reqs dt.userdata i _ (h dt (List.mem_cons_self dt rest))

lemma countU_cons (dt : LrDownloadTarget) (l : List LrDownloadTarget)
    (i : Nat) :
    countU (dt :: l) i = (if dt.userdata = i then 1 else 0) + countU l i := by
  unfold countU
  rcases h : dt.userdata == i with _ | _
  · have : ¬ dt.userdata = i := by simpa using h
    simp [List.filter_cons, h, this]
  · have : dt.userdata = i := by simpa using h
    simp [List.filter_cons, h, this]
    omega

lemma countU_eq_zero_iff (l : List LrDownloadTarget) (i : Nat) :
    countU l i = 0 ↔ ∀ dt ∈ l, dt.userdata ≠ i := by
  induction l with
  | nil => simp [countU]
  | cons dt rest ih =>
    rw [countU_cons]
    constructor
    · intro h
      have h1 : ¬ dt.userdata = i := by
        intro he
        simp [he] at h
      have h2 : countU rest i = 0 := by omega
      intro d hd
      rcases List.mem_cons.mp hd with rfl | hd'
      · exact h1
      · exact ih.mp h2 d hd'
    · intro h
      have h1 : ¬ dt.userdata = i := h dt (List.mem_cons_self dt rest)
      have h2 : countU rest i = 0 :=
        ih.mpr (fun d hd => h d (List.mem_cons_of_mem dt hd))
      simp [h1, h2]

lemma reconcile_getElem?_unique (dts : List LrDownloadTarget)
    (reqs : List LrPackageTarget) (i : Nat) (h : countU dts i ≤ 1) :
    (reconcile dts reqs)[i]? =
      match dts.find? (fun dt => dt.userdata == i) with
      | some dt =>
        match dt.err with
        | some e => Option.map (fun r => { r with err := some e }) reqs[i]?
        | none => reqs[i]?
      | none => reqs[i]? := by
  induction dts generalizing reqs with
  | nil => rfl
  | cons dt rest ih =>
    rcases hud : dt.userdata == i with _ | _
    · have hne : dt.userdata ≠ i := by simpa using hud
      have hcount : countU rest i ≤ 1 := by
        have := countU_cons dt rest i
        simp [hne] at this
        omega
      unfold reconcile
      rw [List.find?_cons_of_neg _ (by simp [hud])]
      cases hdt : dt.err with
      | none => exact ih reqs hcount
      | some e =>
        rw [ih _ hcount]
        rcases hf : rest.find? (fun d => d.userdata == i) with _ | d
        · simp only [hf]
          exact updateAt_getElem?_ne reqs dt.userdata i _ hne
        · simp only [hf]
          cases d.err with
          | none => exact updateAt_getElem?_ne reqs dt.userdata i _ hne
          | some e2 => rw [updateAt_getElem?_ne reqs dt.userdata i _ hne]
    · have heq : dt.userdata = i := by simpa using hud
      have hzero : countU rest i = 0 := by
        have hc := countU_cons dt rest i
        simp [heq] at hc
        omega
      have hrest : ∀ d ∈ rest, d.userdata ≠ i := (countU_eq_zero_iff rest i).mp hzero
      have hfind : (dt :: rest).find? (fun d => d.userdata == i) = some dt :=
        List.find?_cons_of_pos _ (by simp [hud])
      rw [hfind]
      cases hdt : dt.err with
      | none =>
        simp only [reconcile, hdt]
        exact reconcile_getElem?_notmem rest reqs i hrest
      | some e =>
        simp only [reconcile, hdt]
        rw [reconcile_getElem?_notmem rest _ i hrest, heq,
          updateAt_getElem?_self]

lemma annotate_userdata_mem (dts : List LrDownloadTarget)
    (es : List (Option String)) (d : LrDownloadTarget)
    (h : d ∈ annotate dts es) : ∃ d0 ∈ dts, d.userdata = d0.userdata := by
  induction dts generalizing es with
  | nil => simp [annotate] at h
  | cons dt rest ih =>
    cases es with
    | nil =>
      exact ⟨d, by simpa [annotate] using h, rfl⟩
    | cons e es' =>
      simp only [annotate, List.mem_cons] at h
      rcases h with rfl | h'
      · exact ⟨dt, List.mem_cons_self dt rest, rfl⟩
      · obtain ⟨d0, hd0, he⟩ := ih es' h'
        exact ⟨d0, List.mem_cons_of_mem dt hd0, he⟩

lemma countU_annotate (dts : List LrDownloadTarget)
    (es : List (Option String)) (i : Nat) :
    countU (annotate dts es) i = countU dts i := by
  induction dts generalizing es with
  | nil => simp [annotate]
  | cons dt rest ih =>
    cases es with
    | nil => rfl
    | cons e es' =>
      simp only [annotate]
      rw [countU_cons, countU_cons, ih es']

/-! ### Characterization of the prepare loop -/

lemma prep_fst_getElem? (env : LrEnv) (ts : List LrPackageTarget) :
    ∀ k i, ((prepareTargetsAux env k ts).1)[i]? =
      Option.map (fun t => (prepareTarget env (k + i) t).1) ts[i]? := by
  induction ts with
  | nil => intro k i; simp [prepareTargetsAux]
  | cons t rest ih =>
    intro k i
    cases i with
    | zero => simp [prepareTargetsAux]
    | succ m =>
      simp only [prepareTargetsAux, List.getElem?_cons_succ]
      rw [ih (k + 1) m]
      have : k + 1 + m = k + (m + 1) := by omega
      rw [this]

lemma prep_fst_length (env : LrEnv) (ts : List LrPackageTarget) :
    ∀ k, ((prepareTargetsAux env k ts).1).length = ts.length := by
  induction ts with
  | nil => intro k; rfl
  | cons t rest ih =>
    intro k
    simp [prepareTargetsAux, ih (k + 1)]

lemma prep_snd_eq (env : LrEnv) (ts : List LrPackageTarget) :
    ∀ k, (prepareTargetsAux env k ts).2 =
      ((enumFromIdx k ts).filter (fun p => !(skipAt env p.2))).map
        (fun p => mkTargetAt env p.1 p.2) := by
  induction ts with
  | nil => intro k; rfl
  | cons t rest ih =>
    intro k
    simp only [prepareTargetsAux, enumFromIdx, List.filter_cons]
    rw [prepareTarget_snd]
    cases hs : skipAt env t with
    | true => simp [hs, ih (k + 1)]
    | false => simp [hs, ih (k + 1)]

lemma mem_enumFromIdx {α : Type} (ts : List α) :
    ∀ k p, p ∈ enumFromIdx k ts → ∃ j, ts[j]? = some p.2 ∧ p.1 = k + j := by
  induction ts with
  | nil => intro k p h; simp [enumFromIdx] at h
  | cons t rest ih =>
    intro k p h
    simp only [enumFromIdx, List.mem_cons] at h
    rcases h with rfl | h'
    · exact ⟨0, by simp, by omega⟩
    · obtain ⟨j, hj, hk⟩ := ih (k + 1) p h'
      exact ⟨j + 1, by simpa using hj, by omega⟩

lemma mem_prep_snd (env : LrEnv) (ts : List LrPackageTarget) (k : Nat)
    (dt : LrDownloadTarget) (h : dt ∈ (prepareTargetsAux env k ts).2) :
    ∃ j t, ts[j]? = some t ∧ dt.userdata = k + j ∧ skipAt env t = false ∧
      dt = mkTargetAt env (k + j) t := by
  rw [prep_snd_eq env ts k] at h
  obtain ⟨p, hp, rfl⟩ := List.mem_map.mp h
  have hmem := List.mem_filter.mp hp
  obtain ⟨j, hj, hk⟩ := mem_enumFromIdx ts k p hmem.1
  refine ⟨j, p.2, hj, ?_, ?_, ?_⟩
  · rw [mkTargetAt_userdata, hk]
  · simpa using hmem.2
  · rw [hk]

lemma countU_prep_le_one (env : LrEnv) (ts : List LrPackageTarget) (i : Nat) :
    ∀ k, countU (prepareTargetsAux env k ts).2 i ≤ 1 := by
  induction ts with
  | nil => intro k; simp [prepareTargetsAux, countU]
  | cons t rest ih =>
    intro k
    cases hs : skipAt env t with
    | true =>
      have hred : (prepareTarget env k t).2 = none := by
        rw [prepareTarget_snd, hs]
        simp
      simp only [prepareTargetsAux, hred]
      exact ih (k + 1)
    | false =>
      have hred : (prepareTarget env k t).2 = some (mkTargetAt env k t) := by
        rw [prepareTarget_snd, hs]
        simp
      simp only [prepareTargetsAux, hred]
      rw [countU_cons, mkTargetAt_userdata]
      by_cases hk : k = i
      · subst hk
        have hzero : countU (prepareTargetsAux env (k + 1) rest).2 k = 0 := by
          rw [countU_eq_zero_iff]
          intro d hd
          obtain ⟨j, t0, _, hud, _, _⟩ := mem_prep_snd env rest (k + 1) d hd
          omega
        simp [hzero]
      · simp only [hk, if_false]
        simpa using ih (k + 1)

lemma prep_no_target_at_skipped (env : LrEnv) (ts : List LrPackageTarget)
    (i : Nat) (t : LrPackageTarget) (ht : ts[i]? = some t)
    (hs : skipAt env t = true) :
    ∀ dt ∈ (prepareTargetsAux env 0 ts).2, dt.userdata ≠ i := by
  intro dt hdt
  obtain ⟨j, t0, hj, hud, hskip, _⟩ := mem_prep_snd env ts 0 dt hdt
  intro hi
  have hji : j = i := by omega
  rw [hji, ht] at hj
  have heq : t = t0 := by injection hj
  rw [← heq, hs] at hskip
  exact Bool.noConfusion hskip

/-! ### The cleanup tail and the top-level control flow -/

lemma finishBatch_finalTargets (env : LrEnv) (ib ret : Bool)
    (err : Option LrError) (reqs : List LrPackageTarget)
    (ann : List LrDownloadTarget) (ec : Bool) (et : List LrDownloadTarget) :
    (finishBatch env ib ret err reqs ann ec et).finalTargets =
      reconcile ann reqs := by
  unfold finishBatch
  split
  · split <;> rfl
  · rfl

lemma finishBatch_sigRestoreCount (env : LrEnv) (ib ret : Bool)
    (err : Option LrError) (reqs : List LrPackageTarget)
    (ann : List LrDownloadTarget) (ec : Bool) (et : List LrDownloadTarget) :
    (finishBatch env ib ret err reqs ann ec et).sigRestoreCount =
      if ib then 1 else 0 := by
  unfold finishBatch
  split
  · split <;> simp_all
  · simp_all

lemma finishBatch_engineTargets (env : LrEnv) (ib ret : Bool)
    (err : Option LrError) (reqs : List LrPackageTarget)
    (ann : List LrDownloadTarget) (ec : Bool) (et : List LrDownloadTarget) :
    (finishBatch env ib ret err reqs ann ec et).engineTargets = et := by
  unfold finishBatch
  split
  · split <;> rfl
  · rfl

lemma finishBatch_engineAnnotated (env : LrEnv) (ib ret : Bool)
    (err : Option LrError) (reqs : List LrPackageTarget)
    (ann : List LrDownloadTarget) (ec : Bool) (et : List LrDownloadTarget) :
    (finishBatch env ib ret err reqs ann ec et).engineAnnotated = ann := by
  unfold finishBatch
  split
  · split <;> rfl
  · rfl

lemma finishBatch_interrupted (env : LrEnv) (ret : Bool)
    (err : Option LrError) (reqs : List LrPackageTarget)
    (ann : List LrDownloadTarget) (ec : Bool) (et : List LrDownloadTarget)
    (hflag : env.interruptFlag = true) :
    (finishBatch env true ret err reqs ann ec et).ret = false ∧
    (finishBatch env true ret err reqs ann ec et).err =
      some (LrError.LRE_INTERRUPTED "Insterupted by a SIGINT signal") := by
  unfold finishBatch
  simp [hflag]

/-- Control-flow: under a non-empty batch, the supported repotype, a working
`sigaction` (when needed) and successful mirrorlist preparation, the call runs
the prepare loop, the engine, and the cleanup tail. -/
lemma ldp_run (env : LrEnv) (handle : LrHandle) (ts : List LrPackageTarget)
    (ff : Bool) (hne : ts ≠ [])
    (hrepo : handle.repotype = LrRepotype.LR_YUMREPO)
    (hsig : handle.interruptible = true → env.sigactionOk = true)
    (hml : env.mirrorlist = none) :
    lr_download_packages env handle ts ff =
      finishBatch env handle.interruptible
        (env.engine (prepareTargetsAux env 0 ts).2 ff).ret
        ((env.engine (prepareTargetsAux env 0 ts).2 ff).err.map LrError.LRE_OTHER)
        (prepareTargetsAux env 0 ts).1
        (annotate (prepareTargetsAux env 0 ts).2
          (env.engine (prepareTargetsAux env 0 ts).2 ff).targetErrs)
        true (prepareTargetsAux env 0 ts).2 := by
  have hguard : (handle.interruptible && !env.sigactionOk) = false := by
    cases hI : handle.interruptible with
    | false => simp
    | true => simp [hsig hI]
  cases ts with
  | nil => exact absurd rfl hne
  | cons a l =>
    simp only [lr_download_packages, List.isEmpty_cons, hml, hrepo, hguard,
      Bool.false_eq_true, if_false, ne_eq, not_true_eq_false]

/-- Control-flow: mirrorlist preparation failure jumps straight to cleanup
with no prepared targets and no engine call. -/
lemma ldp_run_mirrorfail (env : LrEnv) (handle : LrHandle)
    (ts : List LrPackageTarget) (ff : Bool) (msg : String) (hne : ts ≠ [])
    (hrepo : handle.repotype = LrRepotype.LR_YUMREPO)
    (hsig : handle.interruptible = true → env.sigactionOk = true)
    (hml : env.mirrorlist = some msg) :
    lr_download_packages env handle ts ff =
      finishBatch env handle.interruptible false
        (some (LrError.LRE_OTHER msg)) ts [] false [] := by
  have hguard : (handle.interruptible && !env.sigactionOk) = false := by
    cases hI : handle.interruptible with
    | false => simp
    | true => simp [hsig hI]
  cases ts with
  | nil => exact absurd rfl hne
  | cons a l =>
    simp only [lr_download_packages, List.isEmpty_cons, hml, hrepo, hguard,
      Bool.false_eq_true, if_false, ne_eq, not_true_eq_false]

/-! ### Field preservation through the prepare loop and reconciliation -/

lemma prep_fst_map_dest (env : LrEnv) (ts : List LrPackageTarget) :
    ∀ k, ((prepareTargetsAux env k ts).1).map (fun x => x.dest) =
      ts.map (fun x => x.dest) := by
  induction ts with
  | nil => intro k; rfl
  | cons t rest ih =>
    intro k
    simp only [prepareTargetsAux, List.map_cons, prepareTarget_fst]
    rw [ih (k + 1)]

lemma prep_fst_map_local_path (env : LrEnv) (ts : List LrPackageTarget) :
    ∀ k, ((prepareTargetsAux env k ts).1).map (fun x => x.local_path) =
      ts.map (fun t => some (resolve_local_path env t.dest t.relative_url)) := by
  induction ts with
  | nil => intro k; rfl
  | cons t rest ih =>
    intro k
    simp only [prepareTargetsAux, List.map_cons, prepareTarget_fst]
    rw [ih (k + 1)]

lemma reconcile_map_dest (dts : List LrDownloadTarget)
    (reqs : List LrPackageTarget) :
    (reconcile dts reqs).map (fun x => x.dest) = reqs.map (fun x => x.dest) :=
  reconcile_map (fun x => x.dest) (fun r e => rfl) dts reqs

lemma reconcile_map_local_path (dts : List LrDownloadTarget)
    (reqs : List LrPackageTarget) :
    (reconcile dts reqs).map (fun x => x.local_path) =
      reqs.map (fun x => x.local_path) :=
  reconcile_map (fun x => x.local_path) (fun r e => rfl) dts reqs

lemma ldp_map_dest (env : LrEnv) (handle : LrHandle)
    (ts : List LrPackageTarget) (ff : Bool) :
    (lr_download_packages env handle ts ff).finalTargets.map (fun x => x.dest)
      = ts.map (fun x => x.dest) := by
  unfold lr_download_packages
  split
  · rfl
  · split
    · rfl
    · split
      · rfl
      · split
        · rw [finishBatch_finalTargets, reconcile_map_dest]
        · rw [finishBatch_finalTargets, reconcile_map_dest,
            prep_fst_map_dest]

lemma finishBatch_sigInstalled (env : LrEnv) (ib ret : Bool)
    (err : Option LrError) (reqs : List LrPackageTarget)
    (ann : List LrDownloadTarget) (ec : Bool) (et : List LrDownloadTarget) :
    (finishBatch env ib ret err reqs ann ec et).sigInstalled = ib := by
  unfold finishBatch
  split
  · split <;> simp_all
  · simp_all

/-! ### Concrete fixtures used by the witnesses -/

/-- An engine that succeeds and records no per-target error. -/
def engineOk : List LrDownloadTarget → Bool → EngineResult :=
  fun dts ff => { ret := true, err := none, targetErrs := dts.map (fun x => none) }

/-- An environment in which `/tmp/repo` is a directory holding a readable
`foo-1.0.rpm` whose checksum is `"abc"`. -/
def envSkip : LrEnv :=
  { isDir := fun s => s == "/tmp/repo"
    readable := fun s => s == "/tmp/repo/foo-1.0.rpm"
    openOk := fun s => s == "/tmp/repo/foo-1.0.rpm"
    cksumCmp := fun ty p c => some (p == "/tmp/repo/foo-1.0.rpm" && c == "abc")
    sigactionOk := true
    mirrorlist := none
    engine := engineOk
    interruptFlag := false }

/-- Like `envSkip`, but the engine fails, records a per-target error on every
handed-over target, and a SIGINT arrived during the guarded window. -/
def envIntrErr : LrEnv :=
  { envSkip with
    interruptFlag := true
    engine := fun dts ff =>
      { ret := false, err := some "transfer failed",
        targetErrs := dts.map (fun x => some "Curl error") } }

/-- Like `envSkip`, but the engine fails and records a per-target error. -/
def envErr : LrEnv :=
  { envSkip with
    engine := fun dts ff =>
      { ret := false, err := some "transfer failed",
        targetErrs := dts.map (fun x => some "Curl error") } }

/-- A correctly configured, interruptible handle. -/
def handleYum : LrHandle :=
  { repotype := LrRepotype.LR_YUMREPO, interruptible := true,
    destdir := some "/default", user_cb := 7, user_data := 8 }

/-- A handle with the wrong repository mode. -/
def handleBad : LrHandle := { handleYum with repotype := LrRepotype.LR_DEBREPO }

/-- A request whose resolved file exists with a matching checksum. -/
def tgtSkip : LrPackageTarget :=
  lr_packagetarget_new "pkgs/foo-1.0.rpm" (some "/tmp/repo")
    LrChecksumType.LR_CHECKSUM_SHA256 (some "abc") (-1) none false 0 0

/-- A request with no checksum configured. -/
def tgtPlain : LrPackageTarget :=
  lr_packagetarget_new "pkgs/bar-2.0.rpm" none
    LrChecksumType.LR_CHECKSUM_UNKNOWN none (-1) none true 1 2

/-! ### The claims -/

/-- Claim C10: a batch call with an empty request list returns overall
success immediately with no error set, skipping the repository-mode check,
the interrupt-guard installation and the engine call — for every handle,
including a misconfigured one. -/
theorem claim_C10_empty_batch (env : LrEnv) (handle : LrHandle) (ff : Bool) :
    (lr_download_packages env handle [] ff).ret = true ∧
    (lr_download_packages env handle [] ff).err = none ∧
    (lr_download_packages env handle [] ff).sigInstalled = false ∧
    (lr_download_packages env handle [] ff).sigRestoreCount = 0 ∧
    (lr_download_packages env handle [] ff).engineCalled = false ∧
    (lr_download_packages env handle [] ff).finalTargets = [] :=
  ⟨rfl, rfl, rfl, rfl, rfl, rfl⟩

/-- Claim C9: a non-empty batch on a handle whose repository mode is not
`LR_YUMREPO` fails immediately with the configuration error, with no handler
installed, no request mutated, and no engine invocation. -/
theorem claim_C9_bad_repotype (env : LrEnv) (handle : LrHandle)
    (ts : List LrPackageTarget) (ff : Bool) (hne : ts ≠ [])
    (hrepo : handle.repotype ≠ LrRepotype.LR_YUMREPO) :
    (lr_download_packages env handle ts ff).ret = false ∧
    (lr_download_packages env handle ts ff).err =
      some (LrError.LRE_BADFUNCARG "Bad repo type") ∧
    (lr_download_packages env handle ts ff).sigInstalled = false ∧
    (lr_download_packages env handle ts ff).sigRestoreCount = 0 ∧
    (lr_download_packages env handle ts ff).finalTargets = ts ∧
    (lr_download_packages env handle ts ff).engineCalled = false ∧
    (lr_download_packages env handle ts ff).engineTargets = [] := by
  cases ts with
  | nil => exact absurd rfl hne
  | cons a l => simp [lr_download_packages, hrepo]

/-- Witness for C9 at a concrete misconfigured handle. -/
theorem claim_C9_witness :
    (lr_download_packages envSkip handleBad [tgtPlain] true).ret = false ∧
    (lr_download_packages envSkip handleBad [tgtPlain] true).err =
      some (LrError.LRE_BADFUNCARG "Bad repo type") ∧
    (lr_download_packages envSkip handleBad [tgtPlain] true).sigInstalled = false ∧
    (lr_download_packages envSkip handleBad [tgtPlain] true).sigRestoreCount = 0 ∧
    (lr_download_packages envSkip handleBad [tgtPlain] true).finalTargets = [tgtPlain] ∧
    (lr_download_packages envSkip handleBad [tgtPlain] true).engineCalled = false ∧
    (lr_download_packages envSkip handleBad [tgtPlain] true).engineTargets = [] :=
  claim_C9_bad_repotype envSkip handleBad [tgtPlain] true (by simp) (by decide)

/-- Claim C6: once the SIGINT handler has been installed (non-empty batch,
supported repotype, interruptible handle, successful `sigaction`), the saved
handler is restored exactly once on every exit path — mirrorlist-preparation
failure, engine failure and success alike (the environment is arbitrary in
all those respects). -/
theorem claim_C6_restore_once (env : LrEnv) (handle : LrHandle)
    (ts : List LrPackageTarget) (ff : Bool) (hne : ts ≠ [])
    (hrepo : handle.repotype = LrRepotype.LR_YUMREPO)
    (hintr : handle.interruptible = true)
    (hsig : env.sigactionOk = true) :
    (lr_download_packages env handle ts ff).sigInstalled = true ∧
    (lr_download_packages env handle ts ff).sigRestoreCount = 1 := by
  cases hml : env.mirrorlist with
  | none =>
    rw [ldp_run env handle ts ff hne hrepo (fun _ => hsig) hml,
      finishBatch_sigInstalled, finishBatch_sigRestoreCount, hintr]
    exact ⟨rfl, rfl⟩
  | some msg =>
    rw [ldp_run_mirrorfail env handle ts ff msg hne hrepo (fun _ => hsig) hml,
      finishBatch_sigInstalled, finishBatch_sigRestoreCount, hintr]
    exact ⟨rfl, rfl⟩

/-- Witness for C6 at a concrete interruptible batch. -/
theorem claim_C6_witness :
    (lr_download_packages envSkip handleYum [tgtSkip, tgtPlain] false).sigInstalled = true ∧
    (lr_download_packages envSkip handleYum [tgtSkip, tgtPlain] false).sigRestoreCount = 1 :=
  claim_C6_restore_once envSkip handleYum [tgtSkip, tgtPlain] false (by simp)
    rfl rfl rfl

/-- Claim C2: on an interruptible handle with the guard installed, if the
process-wide interrupt flag is set during the guarded window then the batch
returns failure with the distinct `LRE_INTERRUPTED` error, discarding
whatever overall error the mirrorlist preparation or the transfer engine had
recorded (both are arbitrary here), so interruption is reported exactly once
as the single overall error. -/
theorem claim_C2_interrupt_precedence (env : LrEnv) (handle : LrHandle)
    (ts : List LrPackageTarget) (ff : Bool) (hne : ts ≠ [])
    (hrepo : handle.repotype = LrRepotype.LR_YUMREPO)
    (hintr : handle.interruptible = true)
    (hsig : env.sigactionOk = true)
    (hflag : env.interruptFlag = true) :
    (lr_download_packages env handle ts ff).ret = false ∧
    (lr_download_packages env handle ts ff).err =
      some (LrError.LRE_INTERRUPTED "Insterupted by a SIGINT signal") := by
  cases hml : env.mirrorlist with
  | none =>
    rw [ldp_run env handle ts ff hne hrepo (fun _ => hsig) hml, hintr]
    exact finishBatch_interrupted env _ _ _ _ _ _ hflag
  | some msg =>
    rw [ldp_run_mirrorfail env handle ts ff msg hne hrepo (fun _ => hsig) hml,
      hintr]
    exact finishBatch_interrupted env _ _ _ _ _ _ hflag

/-- Witness for C2: the engine failed with its own error, yet the reported
outcome is the interrupted error. -/
theorem claim_C2_witness :
    (lr_download_packages envIntrErr handleYum [tgtPlain] true).ret = false ∧
    (lr_download_packages envIntrErr handleYum [tgtPlain] true).err =
      some (LrError.LRE_INTERRUPTED "Insterupted by a SIGINT signal") :=
  claim_C2_interrupt_precedence envIntrErr handleYum [tgtPlain] true (by simp)
    rfl rfl rfl rfl

lemma finishBatch_engineCalled (env : LrEnv) (ib ret : Bool)
    (err : Option LrError) (reqs : List LrPackageTarget)
    (ann : List LrDownloadTarget) (ec : Bool) (et : List LrDownloadTarget) :
    (finishBatch env ib ret err reqs ann ec et).engineCalled = ec := by
  unfold finishBatch
  split
  · split <;> rfl
  · rfl

/-- Claim C3: destination resolution is the deterministic three-case
function — existing-directory hint joins with the basename of the relative
URL, any other hint is taken verbatim, and no hint resolves to the bare
basename; in particular the three example instances of the specification. -/
theorem claim_C3_destination_resolution (env : LrEnv) :
    (∀ d u, env.isDir d = true →
      resolve_local_path env (some d) u =
        g_build_filename d (g_path_get_basename u)) ∧
    (∀ d u, env.isDir d = false → resolve_local_path env (some d) u = d) ∧
    (∀ u, resolve_local_path env none u = g_path_get_basename u) ∧
    (env.isDir "/tmp/repo" = true →
      resolve_local_path env (some "/tmp/repo") "pkgs/foo-1.0.rpm" =
        "/tmp/repo/foo-1.0.rpm") ∧
    (env.isDir "/tmp/out.rpm" = false →
      resolve_local_path env (some "/tmp/out.rpm") "pkgs/foo-1.0.rpm" =
        "/tmp/out.rpm") ∧
    resolve_local_path env none "pkgs/foo-1.0.rpm" = "foo-1.0.rpm" := by
  refine ⟨?_, ?_, ?_, ?_, ?_, ?_⟩
  · intro d u h
    simp [resolve_local_path, h]
  · intro d u h
    simp [resolve_local_path, h]
  · intro u
    rfl
  · intro h
    have hj : g_build_filename "/tmp/repo" (g_path_get_basename "pkgs/foo-1.0.rpm")
        = "/tmp/repo/foo-1.0.rpm" := by decide
    simp [resolve_local_path, h, hj]
  · intro h
    simp [resolve_local_path, h]
  · show g_path_get_basename "pkgs/foo-1.0.rpm" = "foo-1.0.rpm"
    decide

/-- Witness for C3 in the concrete environment where `/tmp/repo` is a
directory and `/tmp/out.rpm` is not. -/
theorem claim_C3_witness :
    resolve_local_path envSkip (some "/tmp/repo") "pkgs/foo-1.0.rpm" =
      "/tmp/repo/foo-1.0.rpm" ∧
    resolve_local_path envSkip (some "/tmp/out.rpm") "pkgs/foo-1.0.rpm" =
      "/tmp/out.rpm" ∧
    resolve_local_path envSkip none "pkgs/foo-1.0.rpm" = "foo-1.0.rpm" :=
  ⟨(claim_C3_destination_resolution envSkip).2.2.2.1 (by decide),
   (claim_C3_destination_resolution envSkip).2.2.2.2.1 (by decide),
   (claim_C3_destination_resolution envSkip).2.2.2.2.2⟩

/-- Claim C5: with no checksum configured (value absent or type unknown) the
skip check is never performed — the prepare step's result does not depend on
the file-inspection part of the environment at all — and a download target is
always produced with `resume` passed through; and when the check can run but
the file is unreadable, cannot be opened, or the verifier fails or reports a
mismatch, a download target is still produced with `resume` passed through
and no error is recorded on the request. -/
theorem claim_C5_no_skip_paths (env : LrEnv) (idx : Nat) (t : LrPackageTarget) :
    ((t.checksum = none ∨ t.checksum_type = LrChecksumType.LR_CHECKSUM_UNKNOWN) →
      (∀ env2 : LrEnv, env2.isDir = env.isDir →
        prepareTarget env2 idx t = prepareTarget env idx t) ∧
      ((prepareTarget env idx t).2).map (fun dt => dt.resume) = some t.resume) ∧
    ((t.checksum.isSome = true ∧
      t.checksum_type ≠ LrChecksumType.LR_CHECKSUM_UNKNOWN ∧
      (env.readable (resolve_local_path env t.dest t.relative_url) = false ∨
       env.openOk (resolve_local_path env t.dest t.relative_url) = false ∨
       env.cksumCmp t.checksum_type (resolve_local_path env t.dest t.relative_url)
         (t.checksum.getD "") ≠ some true)) →
      ((prepareTarget env idx t).2).map (fun dt => dt.resume) = some t.resume ∧
      (prepareTarget env idx t).1.err = t.err) := by
  constructor
  · intro h
    constructor
    · intro env2 hdir
      have hlp := resolve_local_path_congr env env2 t.dest t.relative_url hdir
      have hs2 : skipAt env2 t = false :=
        shouldSkip_false_of_no_checksum env2 t _ h
      have hs : skipAt env t = false :=
        shouldSkip_false_of_no_checksum env t _ h
      have h1 : (prepareTarget env2 idx t).1 = (prepareTarget env idx t).1 := by
        rw [prepareTarget_fst, prepareTarget_fst, hs2, hs, hlp]
      have h2 : (prepareTarget env2 idx t).2 = (prepareTarget env idx t).2 := by
        rw [prepareTarget_snd, prepareTarget_snd, hs2, hs]
        simp [mkTargetAt, lr_downloadtarget_new, hlp]
      exact Prod.ext h1 h2
    · have hs : skipAt env t = false :=
        shouldSkip_false_of_no_checksum env t _ h
      rw [prepareTarget_snd, hs]
      simp [mkTargetAt_resume]
  · intro h
    obtain ⟨h1, h2, h3⟩ := h
    have hs : skipAt env t = false := shouldSkip_false_of_fail env t _ h3
    constructor
    · rw [prepareTarget_snd, hs]
      simp [mkTargetAt_resume]
    · rw [prepareTarget_fst, hs]
      simp

/-- A request whose checksum is configured but does not match the file. -/
def tgtMis : LrPackageTarget :=
  lr_packagetarget_new "pkgs/foo-1.0.rpm" (some "/tmp/repo")
    LrChecksumType.LR_CHECKSUM_SHA256 (some "zzz") (-1) none true 0 0

/-- Witness for C5: a request without a checksum and a request with a
mismatching checksum both produce a download target with `resume` passed
through and no error recorded. -/
theorem claim_C5_witness :
    ((prepareTarget envSkip 0 tgtPlain).2).map (fun dt => dt.resume)
      = some tgtPlain.resume ∧
    ((prepareTarget envSkip 0 tgtMis).2).map (fun dt => dt.resume)
      = some tgtMis.resume ∧
    (prepareTarget envSkip 0 tgtMis).1.err = tgtMis.err :=
  ⟨((claim_C5_no_skip_paths envSkip 0 tgtPlain).1 (Or.inl rfl)).2,
   ((claim_C5_no_skip_paths envSkip 0 tgtMis).2
      ⟨rfl, by decide, Or.inr (Or.inr (by decide))⟩).1,
   ((claim_C5_no_skip_paths envSkip 0 tgtMis).2
      ⟨rfl, by decide, Or.inr (Or.inr (by decide))⟩).2⟩

/-- Claim C7: the list handed to the transfer engine is exactly the
non-skipped requests, in input order (the indexed filter of the input list),
the engine is invoked once, and no request is dropped from the final
per-request list. -/
theorem claim_C7_engine_list_order (env : LrEnv) (handle : LrHandle)
    (ts : List LrPackageTarget) (ff : Bool) (hne : ts ≠ [])
    (hrepo : handle.repotype = LrRepotype.LR_YUMREPO)
    (hsig : handle.interruptible = true → env.sigactionOk = true)
    (hml : env.mirrorlist = none) :
    (lr_download_packages env handle ts ff).engineTargets =
      ((enumFromIdx 0 ts).filter (fun p => !(skipAt env p.2))).map
        (fun p => mkTargetAt env p.1 p.2) ∧
    (lr_download_packages env handle ts ff).engineCalled = true ∧
    (lr_download_packages env handle ts ff).finalTargets.length = ts.length := by
  rw [ldp_run env handle ts ff hne hrepo hsig hml]
  refine ⟨?_, ?_, ?_⟩
  · rw [finishBatch_engineTargets, prep_snd_eq]
  · rw [finishBatch_engineCalled]
  · rw [finishBatch_finalTargets, length_reconcile, prep_fst_length]

/-- Witness for C7 on a batch where the first request is skipped and the
second is forwarded. -/
theorem claim_C7_witness :
    (lr_download_packages envSkip handleYum [tgtSkip, tgtPlain] false).engineTargets =
      ((enumFromIdx 0 [tgtSkip, tgtPlain]).filter
        (fun p => !(skipAt envSkip p.2))).map
        (fun p => mkTargetAt envSkip p.1 p.2) ∧
    (lr_download_packages envSkip handleYum [tgtSkip, tgtPlain] false).engineCalled
      = true ∧
    (lr_download_packages envSkip handleYum
      [tgtSkip, tgtPlain] false).finalTargets.length = [tgtSkip, tgtPlain].length :=
  claim_C7_engine_list_order envSkip handleYum [tgtSkip, tgtPlain] false
    (by simp) rfl (fun _ => rfl) rfl

/-- Claim C1: a request whose resolved file is readable, whose checksum type
and value are configured, and for which the verifier runs and reports a
match, ends the batch with the fixed "Already downloaded" marker as its
terminal error, gets no download target, and is absent from the list handed
to the engine. -/
theorem claim_C1_skip_terminal (env : LrEnv) (handle : LrHandle)
    (ts : List LrPackageTarget) (ff : Bool) (i : Nat) (t : LrPackageTarget)
    (c : String) (hne : ts ≠ [])
    (hrepo : handle.repotype = LrRepotype.LR_YUMREPO)
    (hsig : handle.interruptible = true → env.sigactionOk = true)
    (hml : env.mirrorlist = none) (ht : ts[i]? = some t)
    (hread : env.readable (resolve_local_path env t.dest t.relative_url) = true)
    (hck : t.checksum = some c)
    (hty : t.checksum_type ≠ LrChecksumType.LR_CHECKSUM_UNKNOWN)
    (hopen : env.openOk (resolve_local_path env t.dest t.relative_url) = true)
    (hcmp : env.cksumCmp t.checksum_type
      (resolve_local_path env t.dest t.relative_url) c = some true) :
    ((lr_download_packages env handle ts ff).finalTargets[i]?).map (fun r => r.err)
      = some (some "Already downloaded") ∧
    (prepareTarget env i t).2 = none ∧
    (lr_download_packages env handle ts ff).engineTargets.all
      (fun dt => !(dt.userdata == i)) = true := by
  have hs : skipAt env t = true := skipAt_true_of env t c hread hck hty hopen hcmp
  have hnot : ∀ dt ∈ (prepareTargetsAux env 0 ts).2, dt.userdata ≠ i :=
    prep_no_target_at_skipped env ts i t ht hs
  rw [ldp_run env handle ts ff hne hrepo hsig hml]
  refine ⟨?_, ?_, ?_⟩
  · rw [finishBatch_finalTargets]
    have hannot : ∀ dt ∈ annotate (prepareTargetsAux env 0 ts).2
        (env.engine (prepareTargetsAux env 0 ts).2 ff).targetErrs,
        dt.userdata ≠ i := by
      intro d hd
      obtain ⟨d0, hd0, he⟩ := annotate_userdata_mem _ _ d hd
      rw [he]
      exact hnot d0 hd0
    rw [reconcile_getElem?_notmem _ _ i hannot, prep_fst_getElem?, ht]
    simp [prepareTarget_fst, hs]
  · rw [prepareTarget_snd, hs]
    simp
  · rw [finishBatch_engineTargets, List.all_eq_true]
    intro dt hdt
    have hne2 := hnot dt hdt
    simp [hne2]

/-- Witness for C1: the already-downloaded request carries the marker and
only the other request reaches the engine. -/
theorem claim_C1_witness :
    ((lr_download_packages envSkip handleYum [tgtSkip, tgtPlain] false).finalTargets[0]?).map
      (fun r => r.err) = some (some "Already downloaded") ∧
    (prepareTarget envSkip 0 tgtSkip).2 = none ∧
    (lr_download_packages envSkip handleYum [tgtSkip, tgtPlain] false).engineTargets.all
      (fun dt => !(dt.userdata == 0)) = true :=
  claim_C1_skip_terminal envSkip handleYum [tgtSkip, tgtPlain] false 0 tgtSkip
    "abc" (by simp) rfl (fun _ => rfl) rfl rfl (by decide) rfl (by decide)
    (by decide) (by decide)

/-- Claim C8: every request that reaches the resolution stage (and starts
with a clear error field, as constructed) ends the batch in exactly one
terminal state, expressed as one equation: the skipped request keeps the
"Already downloaded" marker untouched by reconciliation, and a non-skipped
request carries exactly the error the engine recorded for it — `none`
(transferred) when the engine recorded none, the specific cause (failed)
when it did. -/
theorem claim_C8_terminal_trichotomy (env : LrEnv) (handle : LrHandle)
    (ts : List LrPackageTarget) (ff : Bool) (i : Nat) (t : LrPackageTarget)
    (hne : ts ≠ [])
    (hrepo : handle.repotype = LrRepotype.LR_YUMREPO)
    (hsig : handle.interruptible = true → env.sigactionOk = true)
    (hml : env.mirrorlist = none) (ht : ts[i]? = some t)
    (herr : t.err = none) :
    ((lr_download_packages env handle ts ff).finalTargets[i]?).map (fun r => r.err)
      = some (if skipAt env t then some "Already downloaded"
              else engineErrFor
                (lr_download_packages env handle ts ff).engineAnnotated i) := by
  rw [ldp_run env handle ts ff hne hrepo hsig hml, finishBatch_finalTargets,
    finishBatch_engineAnnotated]
  cases hs : skipAt env t with
  | true =>
    have hnot : ∀ dt ∈ (prepareTargetsAux env 0 ts).2, dt.userdata ≠ i :=
      prep_no_target_at_skipped env ts i t ht hs
    have hannot : ∀ dt ∈ annotate (prepareTargetsAux env 0 ts).2
        (env.engine (prepareTargetsAux env 0 ts).2 ff).targetErrs,
        dt.userdata ≠ i := by
      intro d hd
      obtain ⟨d0, hd0, he⟩ := annotate_userdata_mem _ _ d hd
      rw [he]
      exact hnot d0 hd0
    rw [reconcile_getElem?_notmem _ _ i hannot, prep_fst_getElem?, ht]
    simp [prepareTarget_fst, hs]
  | false =>
    have hcount : countU (annotate (prepareTargetsAux env 0 ts).2
        (env.engine (prepareTargetsAux env 0 ts).2 ff).targetErrs) i ≤ 1 := by
      rw [countU_annotate]
      exact countU_prep_le_one env ts i 0
    rw [reconcile_getElem?_unique _ _ i hcount]
    unfold engineErrFor
    cases hf : (annotate (prepareTargetsAux env 0 ts).2
        (env.engine (prepareTargetsAux env 0 ts).2 ff).targetErrs).find?
        (fun dt => dt.userdata == i) with
    | none =>
      simp only [hf]
      rw [prep_fst_getElem?, ht]
      simp [prepareTarget_fst, hs, herr]
    | some d =>
      simp only [hf]
      cases hde : d.err with
      | none =>
        rw [prep_fst_getElem?, ht]
        simp [prepareTarget_fst, hs, herr]
      | some e =>
        rw [prep_fst_getElem?, ht]
        simp [prepareTarget_fst, hs, herr]

/-- Witness for C8 on a batch whose second request is forwarded to a failing
engine that records a per-target error. -/
theorem claim_C8_witness :
    ((lr_download_packages envErr handleYum [tgtSkip, tgtPlain] false).finalTargets[1]?).map
      (fun r => r.err)
      = some (if skipAt envErr tgtPlain then some "Already downloaded"
              else engineErrFor
                (lr_download_packages envErr handleYum
                  [tgtSkip, tgtPlain] false).engineAnnotated 1) :=
  claim_C8_terminal_trichotomy envErr handleYum [tgtSkip, tgtPlain] false 1
    tgtPlain (by simp) rfl (fun _ => rfl) rfl rfl rfl

/-- The environment of the C4 counterexample: the handle-level default
destination `/default` names an existing directory, the mirrorlist is
prepared successfully, no file is readable, the engine succeeds. -/
def envC4 : LrEnv :=
  { isDir := fun s => s == "/default"
    readable := fun s => false
    openOk := fun s => false
    cksumCmp := fun ty p c => some false
    sigactionOk := true
    mirrorlist := none
    engine := engineOk
    interruptFlag := false }

/-- Counterexample to claim C4 as stated: in a batch call, a request with no
destination hint resolves to the bare basename even though the handle's
default destination directory `/default` is configured and exists — the
batch path never falls back to the handle default (only the single-item
wrapper applies it). -/
theorem claim_C4_counterexample :
    handleYum.destdir = some "/default" ∧
    envC4.isDir "/default" = true ∧
    tgtPlain.dest = none ∧
    (lr_download_packages envC4 handleYum [tgtPlain] true).finalTargets.map
      (fun r => r.local_path) = [some "bar-2.0.rpm"] ∧
    (lr_download_packages envC4 handleYum [tgtPlain] true).finalTargets.map
      (fun r => r.local_path) ≠
      [some (g_build_filename "/default"
        (g_path_get_basename tgtPlain.relative_url))] :=
  ⟨rfl, by decide, rfl, by decide, by decide⟩

/-- Claim C4 amended: in the batch call an absent destination hint always
resolves to bare `basename(relativeUrl)` — the resolver does not consult the
handle default at all; the handle-level default destination directory is
applied only by the single-item wrapper `lr_download_package`, which
substitutes it for an absent hint before constructing the request, so a
single-item call with no hint and a configured default directory resolves to
`default/basename(relativeUrl)`. -/
theorem claim_C4_amended_default_dir :
    (∀ env : LrEnv, ∀ u : String,
      resolve_local_path env none u = g_path_get_basename u) ∧
    (∀ (env : LrEnv) (handle : LrHandle) (u : String) (ct : LrChecksumType)
      (ck : Option String) (es : Int) (bu : Option String) (r : Bool),
      (lr_download_package env handle u none ct ck es bu r).finalTargets.map
        (fun x => x.dest) = [handle.destdir]) ∧
    (∀ (env : LrEnv) (handle : LrHandle) (u : String) (ct : LrChecksumType)
      (ck : Option String) (es : Int) (bu : Option String) (r : Bool)
      (d : String),
      handle.repotype = LrRepotype.LR_YUMREPO →
      (handle.interruptible = true → env.sigactionOk = true) →
      env.mirrorlist = none → handle.destdir = some d → env.isDir d = true →
      (lr_download_package env handle u none ct ck es bu r).finalTargets.map
        (fun x => x.local_path) =
        [some (g_build_filename d (g_path_get_basename u))]) := by
  refine ⟨?_, ?_, ?_⟩
  · intro env u
    rfl
  · intro env handle u ct ck es bu r
    simp only [lr_download_package]
    rw [ldp_map_dest]
    simp [lr_packagetarget_new]
  · intro env handle u ct ck es bu r d hrepo hsig hml hdd hdir
    simp only [lr_download_package]
    rw [ldp_run _ _ _ _ (by simp) hrepo hsig hml, finishBatch_finalTargets,
      reconcile_map_local_path, prep_fst_map_local_path]
    simp [lr_packagetarget_new, resolve_local_path, hdd, hdir]

/-- Witness for the amended C4: the wrapper with no hint and default
directory `/default` resolves to `/default/bar-2.0.rpm`. -/
theorem claim_C4_amended_witness :
    (lr_download_package envC4 handleYum "pkgs/bar-2.0.rpm" none
      LrChecksumType.LR_CHECKSUM_UNKNOWN none (-1) none false).finalTargets.map
      (fun x => x.local_path) =
      [some (g_build_filename "/default" (g_path_get_basename "pkgs/bar-2.0.rpm"))] :=
  (claim_C4_amended_default_dir).2.2 envC4 handleYum "pkgs/bar-2.0.rpm"
    LrChecksumType.LR_CHECKSUM_UNKNOWN none (-1) none false "/default"
    rfl (fun h => rfl) rfl rfl (by decide)
